import Mathlib

/-!
Shallow embedding of the datapulse analytics core (src/utils/data_processor.py,
src/utils/analytics.py, src/utils/query_parser.py, src/utils/formatters.py and
src/views/ai_chat.py) together with theorems settling the specification claims.

Machine reals of the source (pandas float columns) are modelled as rationals;
dataframes are lists of association-list rows under an ordered column list.
Missing cells (NaN / None) are the explicit `Val.null`, and pandas skip-NaN
summation is `toNum`, which sends missing cells to 0 inside a sum.
-/

/-! ## Python string primitives

The cleaning code uses `str.lower`, `str.strip`, `str.title`, `str.isdigit`
style operations on ASCII business data.  They are modelled character-wise
over `List Char`, which (unlike `String.trim`) reduces definitionally, so
concrete witnesses can be checked by `decide` or `rfl`. -/

/-- Whitespace recognised by Python `str.strip` (ASCII subset). -/
def pyIsSpace (c : Char) : Bool :=
  c == ' ' || c == '\t' || c == '\n' || c == '\r'

/-- Python `s.lower()` (ASCII case folding). -/
def pyLower (s : String) : String :=
  ⟨s.data.map Char.toLower⟩

/-- Python `s.strip()`: drop leading and trailing whitespace. -/
def pyStrip (s : String) : String :=
  ⟨((s.data.dropWhile pyIsSpace).reverse.dropWhile pyIsSpace).reverse⟩

/-- Helper for `pyTitle`: uppercase a cased character that follows a
non-cased character, lowercase the other cased characters.  The boolean
argument records whether the previous character was cased. -/
def pyTitleAux : Bool → List Char → List Char
  | _, [] => []
  | prevCased, c :: cs =>
    let cased := c.isAlpha
    let c2 := if cased then (if prevCased then c.toLower else c.toUpper) else c
    c2 :: pyTitleAux cased cs

/-- Python `s.title()` (ASCII): first cased character of every word is
uppercased, the rest lowercased; any non-letter ends a word. -/
def pyTitle (s : String) : String :=
  ⟨pyTitleAux false s.data⟩

/-! ## Cells, rows and frames -/

/-- A dataframe cell: a string, a number (pandas floats as rationals), a
boolean (for the helper columns such as `_is_delivered`), or missing
(`NaN` / `None`). -/
inductive Val where
  | str : String → Val
  | num : ℚ → Val
  | bool : Bool → Val
  | null : Val
deriving DecidableEq

/-- A row is an association list from column name to cell. -/
abbrev Row := List (String × Val)

/-- A dataframe: an ordered column list plus rows. -/
structure Frame where
  cols : List String
  rows : List Row
deriving DecidableEq

/-- Cell of row `r` at column `c`; a key absent from the row reads as
missing. -/
def getVal (r : Row) (c : String) : Val :=
  match r.find? (fun p => p.1 == c) with
  | some p => p.2
  | none => .null

/-- Overwrite column `c` of row `r` with `v` (used to state the claim that
editing a non-Delivered amount cannot change revenue).  A key the row does
not carry is left absent. -/
def setVal (r : Row) (c : String) (v : Val) : Row :=
  r.map (fun p => if p.1 == c then (p.1, v) else p)

/-- Replace row `i` of the frame by `g` applied to it (out-of-range `i`
leaves the frame unchanged, matching `List.set`). -/
def updateRow (f : Frame) (i : ℕ) (g : Row → Row) : Frame :=
  { f with rows := f.rows.set i (g (f.rows.getD i [])) }

/-- Numeric reading of a cell, as used by pandas `sum` with its default
skip-NaN behaviour: numbers count, anything else contributes 0. -/
def toNum : Val → ℚ
  | .num q => q
  | _ => 0

/-- Python `str()` of a cell, as produced by `astype(str)`: a missing value
becomes the literal string "nan". -/
def pyStr : Val → String
  | .str s => s
  | .num q => toString q
  | .bool b => if b then "True" else "False"
  | .null => "nan"

/-- Lookup in an association list (Python `dict.get`). -/
def alookup (m : List (String × String)) (k : String) : Option String :=
  (m.find? (fun p => p.1 == k)).map (·.2)

/-- Python truthiness of an optional string: `None` and the empty string
are falsy. -/
def truthy : Option String → Bool
  | none => false
  | some s => s != ""

/-! ## DataProcessor (src/utils/data_processor.py) -/

/-- Source `DataProcessor.STATUS_MAP`: synonym table from lower-cased raw status
text to the canonical status. -/
def STATUS_MAP : List (String × String) :=
  [("delivered", "Delivered"), ("completed", "Delivered"), ("fulfilled", "Delivered"),
   ("success", "Delivered"), ("successful", "Delivered"),
   ("cancelled", "Cancelled"), ("canceled", "Cancelled"), ("refunded", "Cancelled"),
   ("rto", "RTO"), ("returned", "RTO"), ("return", "RTO"), ("undelivered", "RTO"),
   ("return to origin", "RTO"), ("failed delivery", "RTO"), ("failed", "RTO"),
   ("processing", "Processing"), ("pending", "Processing"), ("confirmed", "Processing"),
   ("new", "Processing"), ("placed", "Processing"),
   ("shipped", "Shipped"), ("in transit", "Shipped"), ("dispatched", "Shipped")]

/-- Source `DataProcessor.PAYMENT_MAP`: synonym table from lower-cased raw payment
text to the canonical payment type. -/
def PAYMENT_MAP : List (String × String) :=
  [("cod", "COD"), ("cash on delivery", "COD"), ("cash", "COD"),
   ("upi", "UPI"), ("gpay", "UPI"), ("phonepe", "UPI"), ("paytm", "UPI"),
   ("credit card", "Card"), ("debit card", "Card"), ("card", "Card"),
   ("net banking", "Net Banking"), ("netbanking", "Net Banking"),
   ("prepaid", "Prepaid"), ("online", "Prepaid"), ("wallet", "Prepaid")]

/-- Source `DataProcessor.standardize_status`: null becomes "Unknown"; otherwise
the lower-cased, stripped text is looked up in `STATUS_MAP`, and an
unmapped value is returned title-cased (`status.title()` on the original
text). -/
def standardize_status (status : Option String) : String :=
  match status with
  | none => "Unknown"
  | some s => (alookup STATUS_MAP (pyStrip (pyLower s))).getD (pyTitle s)

/-- Source `DataProcessor.standardize_payment`: same shape as
`standardize_status`, over `PAYMENT_MAP`. -/
def standardize_payment (payment : Option String) : String :=
  match payment with
  | none => "Unknown"
  | some s => (alookup PAYMENT_MAP (pyStrip (pyLower s))).getD (pyTitle s)

/-! ## AnalyticsEngine (src/utils/analytics.py)

The engine holds the orders dataframe and the logical-field to column
mapping.  `self._col(field)` is `colOf`; Python truthiness of a column
name (None or empty string is falsy) is spelled out at each use, as in
the source. -/

structure AnalyticsEngine where
  df : Frame
  mappings : List (String × String)

/-- Source `AnalyticsEngine._col`: look the logical field up in the mapping. -/
def colOf (e : AnalyticsEngine) (field : String) : Option String :=
  alookup e.mappings field

/-- Keep the rows satisfying `p` (pandas boolean-mask selection). -/
def filterRows (f : Frame) (p : Row → Bool) : Frame :=
  { f with rows := f.rows.filter p }

/-- Source `AnalyticsEngine._delivered`: rows whose status cell equals
"Delivered" when the status mapping resolves to a present column,
otherwise the whole dataframe. -/
def deliveredDF (e : AnalyticsEngine) : Frame :=
  match colOf e "order_status" with
  | some sc =>
    if sc != "" && e.df.cols.contains sc then
      filterRows e.df (fun r => getVal r sc == .str "Delivered")
    else e.df
  | none => e.df

/-- Source `AnalyticsEngine._shipped`: rows whose status cell is "Delivered" or
"RTO" (`isin`), with the same fallback as `_delivered`. -/
def shippedDF (e : AnalyticsEngine) : Frame :=
  match colOf e "order_status" with
  | some sc =>
    if sc != "" && e.df.cols.contains sc then
      filterRows e.df
        (fun r => getVal r sc == .str "Delivered" || getVal r sc == .str "RTO")
    else e.df
  | none => e.df

/-- Sum of the numeric readings of column `c` (pandas `Series.sum` with
its default skip-NaN behaviour). -/
def colSumQ (f : Frame) (c : String) : ℚ :=
  (f.rows.map (fun r => toNum (getVal r c))).sum

/-- Result record of `AnalyticsEngine.total_revenue`. -/
structure RevenueResult where
  value : ℚ
  orders : ℕ
deriving DecidableEq

/-- Source `AnalyticsEngine.total_revenue`: sum of the mapped amount column over
the delivered rows; 0 when the amount mapping is falsy or names an absent
column. -/
def total_revenue (e : AnalyticsEngine) : RevenueResult :=
  let delivered := deliveredDF e
  let value :=
    match colOf e "total_amount" with
    | some ac =>
      if ac != "" && delivered.cols.contains ac then colSumQ delivered ac else 0
    | none => 0
  ⟨value, delivered.rows.length⟩

/-- Result record of `AnalyticsEngine.rto_rate`. -/
structure RtoResult where
  value : ℚ
  rto_orders : ℕ
  shipped : ℕ
deriving DecidableEq

/-- Source `AnalyticsEngine.rto_rate`: RTO share of the shipped rows, as a
percentage; all zeroes when the status mapping is falsy or stale, or the
shipped set is empty. -/
def rto_rate (e : AnalyticsEngine) : RtoResult :=
  match colOf e "order_status" with
  | none => ⟨0, 0, 0⟩
  | some sc =>
    if sc != "" && e.df.cols.contains sc then
      let shipped := shippedDF e
      let rto_count := (shipped.rows.filter (fun r => getVal r sc == .str "RTO")).length
      let shipped_count := shipped.rows.length
      ⟨if 0 < shipped_count then (rto_count : ℚ) / (shipped_count : ℚ) * 100 else 0,
       rto_count, shipped_count⟩
    else ⟨0, 0, 0⟩

/-! Spec-side readings for the claims: the canonical status of a row is
the cell of the resolved status column; rows of a dataset whose status
mapping does not resolve have no canonical status (read as missing). -/

/-- Canonical status of a row of the engine dataset. -/
def canonStatus (e : AnalyticsEngine) (r : Row) : Val :=
  match colOf e "order_status" with
  | some sc => if sc != "" && e.df.cols.contains sc then getVal r sc else .null
  | none => .null

/-- Number of rows with canonical status "RTO". -/
def rtoCount (e : AnalyticsEngine) : ℕ :=
  (e.df.rows.filter (fun r => canonStatus e r == .str "RTO")).length

/-- Number of rows with canonical status "Delivered". -/
def deliveredCount (e : AnalyticsEngine) : ℕ :=
  (e.df.rows.filter (fun r => canonStatus e r == .str "Delivered")).length

/-- Sum of the amount column `ac` restricted to the rows with canonical
status "Delivered" (the quantity the revenue claim names). -/
def deliveredAmountSum (e : AnalyticsEngine) (ac : String) : ℚ :=
  ((e.df.rows.filter (fun r => canonStatus e r == .str "Delivered")).map
    (fun r => toNum (getVal r ac))).sum

/-! Grouping, for the breakdown methods.  pandas `groupby` keeps one group
per distinct non-missing key; group order only permutes the rows of the
result and no claim depends on it, so keys are taken in first-appearance
order. -/

/-- Distinct elements in first-appearance order (accumulator holds the
values already emitted). -/
def firstDedupAux : List Val → List Val → List Val
  | _, [] => []
  | seen, v :: t =>
    if v ∈ seen then firstDedupAux seen t else v :: firstDedupAux (v :: seen) t

/-- Distinct elements of a list in first-appearance order. -/
def firstDedup (l : List Val) : List Val :=
  firstDedupAux [] l

/-- Group keys of `rows` at column `c`: distinct non-missing cells. -/
def groupKeys (rows : List Row) (c : String) : List Val :=
  firstDedup ((rows.map (fun r => getVal r c)).filter (fun v => v != .null))

/-- Stable descending sort of result rows by the numeric column `name`
(pandas `sort_values(name, ascending=False)`). -/
def sortByDesc (name : String) (rows : List Row) : List Row :=
  rows.mergeSort (fun a b => decide (toNum (getVal b name) ≤ toNum (getVal a name)))

/-- One output row per group for
`groupby(cat).agg(Revenue=(amount, sum), Orders=(amount, count))`:
Revenue is the skip-NaN sum, Orders the count of non-missing amounts. -/
def groupRevenueOrders (rows : List Row) (keyCol amountCol keyName : String) : List Row :=
  (groupKeys rows keyCol).map (fun k =>
    let grp := rows.filter (fun r => getVal r keyCol == k)
    [(keyName, k),
     ("Revenue", .num ((grp.map (fun r => toNum (getVal r amountCol))).sum)),
     ("Orders", .num (((grp.filter (fun r => getVal r amountCol != .null)).length : ℚ)))])

/-- Source `AnalyticsEngine.category_breakdown`: empty frame when either mapping
is falsy or the delivered set is empty; otherwise the per-category
Revenue/Orders table sorted by Revenue descending. -/
def category_breakdown (e : AnalyticsEngine) : Frame :=
  match colOf e "category", colOf e "total_amount" with
  | some cc, some ac =>
    if cc != "" && ac != "" then
      let delivered := deliveredDF e
      if delivered.rows.isEmpty then ⟨[], []⟩
      else
        ⟨["Category", "Revenue", "Orders"],
         sortByDesc "Revenue" (groupRevenueOrders delivered.rows cc ac "Category")⟩
    else ⟨[], []⟩
  | _, _ => ⟨[], []⟩

/-- The binary payment split of `AnalyticsEngine.cod_vs_prepaid`
(line 217): a cell equal to "COD" is COD, anything else is Prepaid. -/
def paymentType (x : Val) : String :=
  if x == .str "COD" then "COD" else "Prepaid"

/-- The partition `df[df[PaymentType] == ptype]` used by
`cod_vs_prepaid`: rows whose payment cell classifies as `ptype`. -/
def paymentSubset (df : Frame) (payment_col ptype : String) : List Row :=
  df.rows.filter (fun r => paymentType (getVal r payment_col) == ptype)

/-! ## DataAnalyzer (src/views/ai_chat.py) -/

/-- The delivered-set selection of `DataAnalyzer.get_breakdown_analysis`
(lines 482-488): rows flagged by the helper column `_is_delivered`, with a
fallback to the full dataframe when no row is flagged or the helper column
is absent. -/
def deliveredSelect (df : Frame) : Frame :=
  if df.cols.contains "_is_delivered" then
    if (filterRows df (fun r => getVal r "_is_delivered" == .bool true)).rows.isEmpty then df
    else filterRows df (fun r => getVal r "_is_delivered" == .bool true)
  else df

/-- One output row per group for the named aggregation of
`get_breakdown_analysis` (lines 501-506).  The amount column has been
coerced with `fillna(0)` (line 499), which is the `toNum` reading, so the
count equals the group size and the mean is sum over size. -/
def aiGroupAgg (rows : List Row) (keyCol amountCol dimName : String) : List Row :=
  (groupKeys rows keyCol).map (fun k =>
    let grp := rows.filter (fun r => getVal r keyCol == k)
    let s := (grp.map (fun r => toNum (getVal r amountCol))).sum
    [(dimName, k),
     ("Total Revenue", .num s),
     ("Avg Order Value", .num (s / (grp.length : ℚ))),
     ("Order Count", .num ((grp.length : ℚ)))])

/-- Rows of the breakdown table built by `get_breakdown_analysis` for a
resolved dimension and amount column (no entity enrichment): group the
selected delivered set, sort by Total Revenue descending, take `limit`
rows.  The percentage column added afterwards does not change the rows
counted here. -/
def ai_breakdown_rows (df : Frame) (dimension_col amount_col dimName : String)
    (limit : ℕ) : List Row :=
  (sortByDesc "Total Revenue"
    (aiGroupAgg (deliveredSelect df).rows dimension_col amount_col dimName)).take limit

/-- New-column cell of `DataAnalyzer._enrich_with_names` (line 121):
`df[column].astype(str).map(lookup).fillna(df[column])` — the string form
of the cell is looked up (a missing cell stringifies to "nan"), and a
lookup miss falls back to the original cell. -/
def enrichNewVal (lookup : List (String × String)) (orig : Val) : Val :=
  match alookup lookup (pyStr orig) with
  | some n => .str n
  | none => orig

/-- Set column `name` of a row, appending the key when absent (pandas
column assignment). -/
def setOrAppend (r : Row) (name : String) (v : Val) : Row :=
  if r.any (fun p => p.1 == name) then setVal r name v else r ++ [(name, v)]

/-- Assign column `name` of the frame from `g` (pandas `df[name] = ...`):
every row gets the new cell, the column list gains `name` if new. -/
def addCol (f : Frame) (name : String) (g : Row → Val) : Frame :=
  { cols := if f.cols.contains name then f.cols else f.cols ++ [name],
    rows := f.rows.map (fun r => setOrAppend r name (g r)) }

/-- Result of `_enrich_with_names`: the (possibly) enriched frame and the
display column name. -/
structure EnrichResult where
  df : Frame
  display : String
deriving DecidableEq

/-- The sample of `_enrich_with_names` (line 115): up to 20 non-missing
values of the target column, as strings. -/
def enrichSample (df : Frame) (column : String) : List String :=
  (((df.rows.map (fun r => getVal r column)).filter (fun v => v != .null)).map pyStr).take 20

/-- The 30-percent sample test of `_enrich_with_names` (lines 116-118):
does the number of sample values that are lookup keys reach 0.3 times the
sample size? -/
def enrichFires (lookup : List (String × String)) (df : Frame) (column : String) : Bool :=
  decide (((enrichSample df column).length : ℚ) * 3 / 10
    ≤ (((enrichSample df column).filter (fun v => (alookup lookup v).isSome)).length : ℚ))

/-- Source `DataAnalyzer._enrich_with_names`: with a non-empty lookup table,
when the 30-percent sample test passes, add the display-name column
`{entity_type.title()} Name` and return its name, else return the frame
and column unchanged. -/
def enrich_with_names (lookup : List (String × String)) (df : Frame)
    (column entity_type : String) : EnrichResult :=
  if lookup.isEmpty then ⟨df, column⟩
  else if enrichFires lookup df column then
    ⟨addCol df (pyTitle entity_type ++ " Name") (fun r => enrichNewVal lookup (getVal r column)),
     pyTitle entity_type ++ " Name"⟩
  else ⟨df, column⟩

/-! Ads aggregation of `DataAnalyzer.get_ads_analysis`
(lines 1558-1593). -/

/-- Sum a column when present, else contribute 0 (the `if col in columns`
guards of lines 1566-1587). -/
def sumIfCol (f : Frame) (c : String) : ℚ :=
  if f.cols.contains c then colSumQ f c else 0

/-- Aggregated ads totals across the loaded platforms. -/
structure AdsTotals where
  spend : ℚ
  impressions : ℚ
  clicks : ℚ
  conversions : ℚ
  revenue : ℚ
deriving DecidableEq

/-- Totals summed from the Meta and Google ads frames; an unloaded frame
(no rows) contributes nothing, matching the `has_meta` / `has_google`
guards. -/
def adsTotals (meta google : Frame) : AdsTotals :=
  let m := !meta.rows.isEmpty
  let g := !google.rows.isEmpty
  { spend := (if m then sumIfCol meta "spend" else 0) + (if g then sumIfCol google "cost" else 0),
    impressions := (if m then sumIfCol meta "impressions" else 0)
      + (if g then sumIfCol google "impressions" else 0),
    clicks := (if m then sumIfCol meta "clicks" else 0) + (if g then sumIfCol google "clicks" else 0),
    conversions := (if m then sumIfCol meta "conversions" else 0)
      + (if g then sumIfCol google "conversions" else 0),
    revenue := (if m then sumIfCol meta "revenue" else 0)
      + (if g then sumIfCol google "conversion_value" else 0) }

/-- CTR of line 1590: clicks per impression as a percentage, 0 on a
non-positive denominator. -/
def adsCtr (t : AdsTotals) : ℚ :=
  if 0 < t.impressions then t.clicks / t.impressions * 100 else 0

/-- CPC of line 1591: spend per click, 0 on a non-positive denominator. -/
def adsCpc (t : AdsTotals) : ℚ :=
  if 0 < t.clicks then t.spend / t.clicks else 0

/-- CPA of line 1592: spend per conversion, 0 on a non-positive
denominator. -/
def adsCpa (t : AdsTotals) : ℚ :=
  if 0 < t.conversions then t.spend / t.conversions else 0

/-- ROAS of line 1593: revenue per unit spend, 0 on a non-positive
denominator. -/
def adsRoas (t : AdsTotals) : ℚ :=
  if 0 < t.spend then t.revenue / t.spend else 0

/-! Limit extraction of `DataAnalyzer.analyze_query` (lines 332-334):
`re.findall` of one-or-more digits over the raw query; the first run is
the limit, else 10. -/

/-- Numeric value of a digit run. -/
def natFromDigits (ds : List Char) : ℕ :=
  ds.foldl (fun n c => 10 * n + (c.toNat - 48)) 0

/-- Leftmost maximal digit run of a character list. -/
def firstIntRun : List Char → Option ℕ
  | [] => none
  | c :: t =>
    if c.isDigit then some (natFromDigits ((c :: t).takeWhile Char.isDigit))
    else firstIntRun t

/-- Source `analyze_query` limit: first integer of the query text, else 10. -/
def analyzeLimit (query : String) : ℕ :=
  match firstIntRun query.data with
  | some n => n
  | none => 10

/-! ## QueryParser (src/utils/query_parser.py)

The `PATTERNS` table uses four regex shapes only: a literal substring, a
pair of literals separated by `.*`, an anchored literal `^...$`, and a
word-bounded literal `\b...\b`.  Each shape is compiled by hand to an
executable matcher over the character list (queries carry no newline, so
`.` never has to exclude one). -/

/-- One compiled query-parser regex. -/
inductive Pat where
  | sub : String → Pat
  | seq2 : String → String → Pat
  | anchored : String → Pat
  | word : String → Pat
deriving DecidableEq

/-- Remainder of the haystack after its leftmost occurrence of the
needle, or `none`. -/
def findDrop (needle : List Char) : List Char → Option (List Char)
  | [] => if needle.isEmpty then some [] else none
  | c :: t =>
    if needle.isPrefixOf (c :: t) then some ((c :: t).drop needle.length)
    else findDrop needle t

/-- Does the needle occur in the haystack? -/
def hasSub (hay : List Char) (needle : String) : Bool :=
  (findDrop needle.data hay).isSome

/-- Do the needles occur in this order (the `a.*b` shape)?  Taking the
leftmost occurrence of each needle preserves exactly the existence of a
match. -/
def hasSubSeq : List Char → List String → Bool
  | _, [] => true
  | hay, n :: ns =>
    match findDrop n.data hay with
    | some rest => hasSubSeq rest ns
    | none => false

/-- Regex word characters (`\w`): letters, digits, underscore. -/
def isWordChar (c : Char) : Bool :=
  c.isAlphanum || c == '_'

/-- Does the needle occur with a word boundary on both sides?  The first
argument carries the character just before the current position. -/
def wordOccursFrom (needle : List Char) : Option Char → List Char → Bool
  | prev, hay =>
    (!(prev.elim false isWordChar) && needle.isPrefixOf hay
      && (match hay.drop needle.length with
          | [] => true
          | c :: _ => !isWordChar c))
    || (match hay with
        | [] => false
        | c :: t => wordOccursFrom needle (some c) t)

/-- Match one compiled pattern against the lower-cased query. -/
def matchPat (s : String) : Pat → Bool
  | .sub t => hasSub s.data t
  | .seq2 a b => hasSubSeq s.data [a, b]
  | .anchored t => s == t
  | .word t => wordOccursFrom t.data none s.data

/-- Source `QueryParser.PATTERNS`, in source order, each regex compiled to its
`Pat` shape. -/
def PATTERNS : List (String × List Pat) :=
  [("total_revenue", [.sub "total revenue", .anchored "revenue", .seq2 "how much" "made",
                      .sub "total sales", .sub "gmv"]),
   ("aov", [.sub "average order value", .word "aov", .seq2 "avg" "order", .seq2 "basket" "size"]),
   ("order_count", [.sub "how many orders", .sub "total orders", .sub "order count"]),
   ("rto_rate", [.sub "rto rate", .seq2 "return" "rate", .word "rto", .sub "returns"]),
   ("status_breakdown", [.sub "status breakdown", .sub "orders by status", .sub "status wise"]),
   ("category_breakdown", [.sub "revenue by category", .seq2 "category" "revenue",
                           .sub "by category"]),
   ("top_products", [.seq2 "top" "product", .seq2 "best" "product", .sub "best sell"]),
   ("top_customers", [.seq2 "top" "customer", .seq2 "best" "customer", .sub "vip"]),
   ("cod_vs_prepaid", [.seq2 "cod" "prepaid", .seq2 "prepaid" "cod", .seq2 "cod" "vs",
                       .seq2 "compare" "payment"]),
   ("rto_by_payment", [.seq2 "rto" "payment", .seq2 "rto" "cod", .seq2 "payment" "rto"]),
   ("rto_by_city", [.seq2 "rto" "city", .seq2 "city" "rto"]),
   ("revenue_trend", [.sub "revenue trend", .seq2 "revenue" "time", .sub "monthly revenue"]),
   ("city_breakdown", [.seq2 "revenue" "city", .seq2 "city" "revenue", .seq2 "top" "city"]),
   ("payment_breakdown", [.seq2 "payment" "breakdown", .seq2 "by" "payment"]),
   ("summary", [.sub "summary", .sub "overview", .sub "dashboard", .word "kpi"])]

/-- Try the pattern `top\s*(\d+)` at the head of the haystack: the
literal "top", any run of whitespace, then at least one digit. -/
def tryTopAt (hay : List Char) : Option ℕ :=
  if ("top".data).isPrefixOf hay then
    if (((hay.drop 3).dropWhile pyIsSpace).takeWhile Char.isDigit).isEmpty then none
    else some (natFromDigits (((hay.drop 3).dropWhile pyIsSpace).takeWhile Char.isDigit))
  else none

/-- Source `re.search` of `top\s*(\d+)`: leftmost position where the whole
pattern matches. -/
def topLimitScan : List Char → Option ℕ
  | [] => none
  | c :: t =>
    match tryTopAt (c :: t) with
    | some n => some n
    | none => topLimitScan t

/-- Source `QueryParser.parse`: lower-case and strip the query, extract the
optional `top N` limit, then return the first intent one of whose
patterns matches (else "unknown"). -/
def parse (query : String) : String × Option ℕ :=
  match PATTERNS.find? (fun p => p.2.any (matchPat (pyStrip (pyLower query)))) with
  | some p => (p.1, topLimitScan (pyStrip (pyLower query)).data)
  | none => ("unknown", topLimitScan (pyStrip (pyLower query)).data)

/-- The limit used by the top-N handlers of `QueryParser.execute`
(lines 91, 104, 147, 168): `params.get("limit", 10)`. -/
def executeLimit (query : String) : ℕ :=
  ((parse query).2).getD 10

/-! ## Formatters (src/utils/formatters.py and ai_chat.format_inr)

Python `format(x, ".2f")` style decimal rendering is modelled by rational
rounding (ties to even, as float formatting rounds); the claims evaluate
it away from ties, where the two agree.  The rupee sign of `format_inr`
is stored mojibake-encoded in src/views/ai_chat.py (an encoding artifact
of the file; src/utils/formatters.py stores it cleanly) and is modelled
as the intended rupee sign. -/

/-- Floor of a rational, written on its reduced fraction so that concrete
values evaluate inside `decide`. -/
def ratFloor (q : ℚ) : ℤ :=
  Int.fdiv q.num q.den

/-- Round to the nearest integer, ties to even. -/
def roundHE (q : ℚ) : ℤ :=
  let f := ratFloor q
  let frac := q - (f : ℚ)
  if frac < 1 / 2 then f
  else if 1 / 2 < frac then f + 1
  else if f % 2 = 0 then f else f + 1

/-- Two-digit zero-padded rendering of a natural below 100. -/
def pad2 (k : ℕ) : String :=
  if k < 10 then "0" ++ toString k else toString k

/-- Python `f"{q:.2f}"`. -/
def fmt2 (q : ℚ) : String :=
  let n := roundHE (q * 100)
  let sign := if n < 0 then "-" else ""
  sign ++ toString (n.natAbs / 100) ++ "." ++ pad2 (n.natAbs % 100)

/-- Insert thousands separators walking the reversed digit list; `k`
counts digits already emitted. -/
def commaRev : List Char → ℕ → List Char
  | [], _ => []
  | c :: t, k =>
    let rest := commaRev t (k + 1)
    if k % 3 == 2 && !t.isEmpty then c :: ',' :: rest else c :: rest

/-- Comma-grouped digits of a natural number. -/
def commaNat (m : ℕ) : String :=
  ⟨(commaRev (toString m).data.reverse 0).reverse⟩

/-- Python `f"{q:,.0f}"`. -/
def fmtComma0 (q : ℚ) : String :=
  let n := roundHE q
  (if n < 0 then "-" else "") ++ commaNat n.natAbs

/-- Python `f"{q:,.2f}"`. -/
def fmtComma2 (q : ℚ) : String :=
  let n := roundHE (q * 100)
  (if n < 0 then "-" else "") ++ commaNat (n.natAbs / 100) ++ "." ++ pad2 (n.natAbs % 100)

/-- Python `f"{q:.0f}"`. -/
def fmt0 (q : ℚ) : String :=
  let n := roundHE q
  (if n < 0 then "-" else "") ++ toString n.natAbs

/-- Source `format_currency` of src/utils/formatters.py: `none` models the
NaN/None guard; INR values scale by absolute-value thresholds to crores
("Cr") and lakhs ("L") with two decimals, smaller values stay unscaled. -/
def format_currency (value : Option ℚ) (currency : String) : String :=
  match value with
  | none => "₹0"
  | some v =>
    if currency == "INR" then
      if 10000000 ≤ |v| then "₹" ++ fmt2 (v / 10000000) ++ "Cr"
      else if 100000 ≤ |v| then "₹" ++ fmt2 (v / 100000) ++ "L"
      else if 1000 ≤ |v| then "₹" ++ fmtComma0 v
      else "₹" ++ fmt0 v
    else "$" ++ fmtComma2 v

/-- Source `format_inr` of src/views/ai_chat.py: zero (and NaN, not modelled
here) renders as "₹0"; thresholds test the signed value, and the scaled
forms carry a space before the suffix. -/
def format_inr (v : ℚ) : String :=
  if v = 0 then "₹0"
  else if 10000000 ≤ v then "₹" ++ fmt2 (v / 10000000) ++ " Cr"
  else if 100000 ≤ v then "₹" ++ fmt2 (v / 100000) ++ " L"
  else "₹" ++ fmtComma0 v

/-- Concrete payment rows of the C6 scenario: the raw values "GPay",
"PhonePe", "COD", "Cash" after payment standardization. -/
def payRowsC6 : List Row :=
  ["GPay", "PhonePe", "COD", "Cash"].map
    (fun s => [("payment", Val.str (standardize_payment (some s)))])

/-- The C6 scenario frame. -/
def payFrameC6 : Frame :=
  ⟨["payment"], payRowsC6⟩

/-- The C3 counterexample engine: category and amount mappings resolved,
one RTO row, no Delivered row. -/
def engC3 : AnalyticsEngine :=
  ⟨⟨["status", "cat", "amount"],
    [[("status", Val.str "RTO"), ("cat", Val.str "Shoes"), ("amount", Val.num 10)]]⟩,
   [("order_status", "status"), ("category", "cat"), ("total_amount", "amount")]⟩

/-! ## Helper lemmas -/

/-- The per-pair function of `setVal` preserves keys, so the search
predicate of `getVal` is unaffected by it. -/
theorem setVal_pred_eq (c c2 : String) (v : Val) :
    ((fun p => p.1 == c2) ∘ fun (p : String × Val) => if p.1 == c then (p.1, v) else p)
      = (fun p => p.1 == c2) := by
  funext p
  by_cases hp : p.1 = c <;> simp [hp]

/-- Reading a column other than the one set leaves a row unchanged. -/
theorem getVal_setVal_ne (r : Row) (c c2 : String) (v : Val) (h : c2 ≠ c) :
    getVal (setVal r c v) c2 = getVal r c2 := by
  unfold getVal setVal
  rw [List.find?_map, setVal_pred_eq]
  cases hf : r.find? (fun p => p.1 == c2) with
  | none => simp
  | some p =>
    have hp2 : p.1 = c2 := by simpa using List.find?_some hf
    have hpc : ¬(p.1 = c) := by
      rw [hp2]
      exact h
    simp [hpc]

/-- Setting a numeric cell can never make a row read "Delivered" at any
column, provided it did not before. -/
theorem getVal_setVal_num_ne_delivered (r : Row) (c c2 : String) (q : ℚ)
    (h : getVal r c2 ≠ .str "Delivered") :
    getVal (setVal r c (.num q)) c2 ≠ .str "Delivered" := by
  by_cases hc : c2 = c
  · subst hc
    unfold getVal setVal
    rw [List.find?_map, setVal_pred_eq]
    cases hf : r.find? (fun p => p.1 == c2) with
    | none => simp
    | some p =>
      have hp2 : p.1 = c2 := by simpa using List.find?_some hf
      simp [hp2]
  · rw [getVal_setVal_ne r c c2 (.num q) hc]
    exact h

/-- Replacing a list element on which the filter predicate is false, by
another element on which it is false, does not change the filtered list. -/
theorem filter_set_eq {α : Type} (p : α → Bool) (l : List α) (i : ℕ) (a d : α)
    (h1 : p (l.getD i d) = false) (h2 : p a = false) :
    (l.set i a).filter p = l.filter p := by
  induction l generalizing i with
  | nil => simp
  | cons x t ih =>
    cases i with
    | zero =>
      simp only [List.getD_cons_zero] at h1
      simp [List.filter, h1, h2]
    | succ n =>
      simp only [List.getD_cons_succ] at h1
      simp only [List.set_cons_succ, List.filter]
      cases hx : p x <;> simp [ih n h1]

/-- Length of a disjunctive filter splits over disjoint predicates. -/
theorem length_filter_or {α : Type} (p q : α → Bool) (l : List α)
    (h : ∀ a ∈ l, ¬(p a = true ∧ q a = true)) :
    (l.filter (fun a => p a || q a)).length
      = (l.filter p).length + (l.filter q).length := by
  induction l with
  | nil => simp
  | cons x t ih =>
    have hx := h x (by simp)
    have ht : ∀ a ∈ t, ¬(p a = true ∧ q a = true) := fun a ha => h a (by simp [ha])
    cases hp : p x <;> cases hq : q x
    · simp [List.filter, hp, hq, ih ht]
    · simp only [List.filter, hp, hq, Bool.false_or, List.length_cons]
      rw [ih ht]
      omega
    · simp only [List.filter, hp, hq, Bool.true_or, List.length_cons]
      rw [ih ht]
      omega
    · exact absurd ⟨hp, hq⟩ hx

/-- Reading through a row-wise map commutes with positional access, for
maps that preserve the read. -/
theorem getVal_getD_map (f : Row → Row) (c : String) (l : List Row) (i : ℕ)
    (hf : ∀ r, getVal (f r) c = getVal r c) :
    getVal ((l.map f).getD i []) c = getVal (l.getD i []) c := by
  induction l generalizing i with
  | nil => simp
  | cons x t ih =>
    cases i with
    | zero => simp [hf]
    | succ n => simpa using ih n

/-- Positional access through a row-wise map, in range. -/
theorem getD_map_lt (f : Row → Row) (l : List Row) (i : ℕ) (h : i < l.length) :
    (l.map f).getD i [] = f (l.getD i []) := by
  induction l generalizing i with
  | nil => simp at h
  | cons x t ih =>
    cases i with
    | zero => simp
    | succ n => simpa using ih n (by simpa using h)

/-! ## Claim C5 -/

/-- C5: status normalization maps a missing value to "Unknown"; a string
whose lower-cased stripped form is a key of the synonym table maps to
the canonical status recorded for that key; any other string is returned title-cased
(preserving the original text) rather than becoming "Unknown". -/
theorem C5_standardize_status (s canon : String) :
    standardize_status none = "Unknown"
    ∧ (alookup STATUS_MAP (pyStrip (pyLower s)) = some canon →
        standardize_status (some s) = canon)
    ∧ (alookup STATUS_MAP (pyStrip (pyLower s)) = none →
        standardize_status (some s) = pyTitle s) := by
  refine ⟨rfl, ?_, ?_⟩ <;> intro h <;> simp [standardize_status, h]

/-- Witness for C5 at a mapped synonym and at unrecognized text. -/
theorem C5_witness :
    (alookup STATUS_MAP (pyStrip (pyLower "  DELIVERED ")) = some "Delivered"
      ∧ standardize_status (some "  DELIVERED ") = "Delivered")
    ∧ (alookup STATUS_MAP (pyStrip (pyLower "weird state")) = none
      ∧ standardize_status (some "weird state") = pyTitle "weird state") :=
  ⟨⟨by decide, (C5_standardize_status "  DELIVERED " "Delivered").2.1 (by decide)⟩,
   ⟨by decide, (C5_standardize_status "weird state" "Delivered").2.2 (by decide)⟩⟩

/-! ## Claim C6 -/


/-- C6: the scenario raw payments normalize to UPI, UPI, COD, COD; the
COD-vs-Prepaid split of `cod_vs_prepaid` puts the first two rows on the
Prepaid side and the last two on the COD side, and every value other than
"COD" counts as Prepaid. -/
theorem C6_payment_partition :
    (["GPay", "PhonePe", "COD", "Cash"].map (fun s => standardize_payment (some s))
        = ["UPI", "UPI", "COD", "COD"])
    ∧ paymentSubset payFrameC6 "payment" "Prepaid" = [payRowsC6.getD 0 [], payRowsC6.getD 1 []]
    ∧ paymentSubset payFrameC6 "payment" "COD" = [payRowsC6.getD 2 [], payRowsC6.getD 3 []]
    ∧ (∀ s : String, s ≠ "COD" → paymentType (.str s) = "Prepaid") := by
  refine ⟨by decide, by decide, by decide, ?_⟩
  intro s hs
  simp [paymentType, hs]

/-- Witness for C6 at a canonical non-COD payment value. -/
theorem C6_witness : ("UPI" : String) ≠ "COD" ∧ paymentType (.str "UPI") = "Prepaid" :=
  ⟨by decide, C6_payment_partition.2.2.2 "UPI" (by decide)⟩

/-! ## Claim C7 -/

/-- C7: each derived ads metric is 0 whenever its denominator total is
zero, for every pair of loaded ad-platform frames; the functions are
total, so no error value arises. -/
theorem C7_ads_zero_denominator (meta google : Frame) :
    ((adsTotals meta google).impressions = 0 → adsCtr (adsTotals meta google) = 0)
    ∧ ((adsTotals meta google).clicks = 0 → adsCpc (adsTotals meta google) = 0)
    ∧ ((adsTotals meta google).conversions = 0 → adsCpa (adsTotals meta google) = 0)
    ∧ ((adsTotals meta google).spend = 0 → adsRoas (adsTotals meta google) = 0) := by
  refine ⟨?_, ?_, ?_, ?_⟩ <;> intro h <;>
    simp [adsCtr, adsCpc, adsCpa, adsRoas, h]

/-- Witness for C7 on empty ads frames. -/
theorem C7_witness :
    (adsTotals ⟨[], []⟩ ⟨[], []⟩).impressions = 0
    ∧ adsCtr (adsTotals ⟨[], []⟩ ⟨[], []⟩) = 0 :=
  ⟨by with_unfolding_all rfl,
   (C7_ads_zero_denominator ⟨[], []⟩ ⟨[], []⟩).1 (by with_unfolding_all rfl)⟩

/-- Assigning a column leaves every other column of a row unchanged. -/
theorem getVal_setOrAppend_ne (r : Row) (name c : String) (v : Val) (h : c ≠ name) :
    getVal (setOrAppend r name v) c = getVal r c := by
  unfold setOrAppend
  by_cases ha : r.any (fun p => p.1 == name)
  · simp only [ha, if_true]
    exact getVal_setVal_ne r name c v h
  · rw [if_neg ha]
    unfold getVal
    rw [List.find?_append]
    cases hf : r.find? (fun p => p.1 == c) with
    | none => simp [hf, List.find?, beq_eq_false_iff_ne.mpr (Ne.symm h)]
    | some p => simp [hf]

/-- Assigning a column makes the row read the assigned cell there. -/
theorem getVal_setOrAppend_self (r : Row) (name : String) (v : Val) :
    getVal (setOrAppend r name v) name = v := by
  unfold setOrAppend
  by_cases ha : r.any (fun p => p.1 == name)
  · simp only [ha, if_true]
    unfold getVal setVal
    rw [List.find?_map, setVal_pred_eq]
    obtain ⟨p, hp, hpn⟩ := List.any_eq_true.mp ha
    cases hf : r.find? (fun p => p.1 == name) with
    | none =>
      rw [List.find?_eq_none] at hf
      exact absurd hpn (hf p hp)
    | some x =>
      have hx := List.find?_some hf
      simp only [beq_iff_eq] at hx
      simp [hx]
  · rw [if_neg ha]
    unfold getVal
    rw [List.find?_append]
    have hf : r.find? (fun p => p.1 == name) = none := by
      rw [List.find?_eq_none]
      intro x hx hxe
      exact ha (List.any_eq_true.mpr ⟨x, hx, hxe⟩)
    simp [hf, List.find?]

/-! ## Claim C9 -/

/-- C9: entity enrichment returns a frame with exactly as many rows as
its input, and every column other than the (possibly added) display-name
column `{entity_type.title()} Name` reads the same in every row position,
whether or not the ID heuristic fires. -/
theorem C9_enrich_frame_effect (lookup : List (String × String)) (df : Frame)
    (column entity_type c : String) (i : ℕ)
    (hc : c ≠ pyTitle entity_type ++ " Name") :
    (enrich_with_names lookup df column entity_type).df.rows.length = df.rows.length
    ∧ getVal ((enrich_with_names lookup df column entity_type).df.rows.getD i []) c
        = getVal (df.rows.getD i []) c := by
  unfold enrich_with_names
  by_cases hl : lookup.isEmpty
  · rw [if_pos hl]
    exact ⟨rfl, rfl⟩
  · rw [if_neg hl]
    by_cases hfires : enrichFires lookup df column
    · rw [if_pos hfires]
      refine ⟨by simp [addCol], ?_⟩
      simp only [addCol]
      exact getVal_getD_map _ c df.rows i
        (fun r => getVal_setOrAppend_ne r _ c _ hc)
    · rw [if_neg hfires]
      exact ⟨rfl, rfl⟩

/-- Witness for C9: a product-ID frame where the heuristic fires; the
amount column and the row count survive enrichment. -/
theorem C9_witness :
    (("amt" : String) ≠ pyTitle "product" ++ " Name")
    ∧ (enrich_with_names [("P1", "Widget")] ⟨["pid", "amt"],
        [[("pid", Val.str "P1"), ("amt", Val.num 5)]]⟩ "pid" "product").df.rows.length
        = (⟨["pid", "amt"], [[("pid", Val.str "P1"), ("amt", Val.num 5)]]⟩ : Frame).rows.length
    ∧ getVal ((enrich_with_names [("P1", "Widget")] ⟨["pid", "amt"],
        [[("pid", Val.str "P1"), ("amt", Val.num 5)]]⟩ "pid" "product").df.rows.getD 0 []) "amt"
        = getVal ((⟨["pid", "amt"],
            [[("pid", Val.str "P1"), ("amt", Val.num 5)]]⟩ : Frame).rows.getD 0 []) "amt" :=
  ⟨by decide,
   (C9_enrich_frame_effect [("P1", "Widget")] ⟨["pid", "amt"],
      [[("pid", Val.str "P1"), ("amt", Val.num 5)]]⟩ "pid" "product" "amt" 0 (by decide)).1,
   (C9_enrich_frame_effect [("P1", "Widget")] ⟨["pid", "amt"],
      [[("pid", Val.str "P1"), ("amt", Val.num 5)]]⟩ "pid" "product" "amt" 0 (by decide)).2⟩

/-- Positional access stays inside the list when the index is in
range. -/
theorem getD_mem_of_lt {α : Type} (l : List α) (i : ℕ) (d : α) (h : i < l.length) :
    l.getD i d ∈ l := by
  induction l generalizing i with
  | nil => simp at h
  | cons x t ih =>
    cases i with
    | zero => simp
    | succ n =>
      rw [List.getD_cons_succ]
      exact List.mem_cons_of_mem x (ih n (by simpa using h))

/-! ## Claim C10 -/

/-- C10 counterexample: with a non-empty lookup whose keys include the
string "nan" and a target column that is entirely missing, the heuristic
fires and the new display-name cell is the looked-up name, not the
original (missing) value the claim promises as fallback. -/
theorem C10_counterexample :
    (enrich_with_names [("nan", "Ghost")] ⟨["pid"], [[("pid", Val.null)]]⟩
        "pid" "product").display = "Product Name"
    ∧ getVal ((enrich_with_names [("nan", "Ghost")] ⟨["pid"], [[("pid", Val.null)]]⟩
        "pid" "product").df.rows.getD 0 []) "Product Name" = Val.str "Ghost"
    ∧ Val.str "Ghost" ≠ Val.null :=
  ⟨by with_unfolding_all rfl, by with_unfolding_all rfl, by decide⟩

/-- C10 (amended): when the lookup is non-empty and the target column has
no non-missing value, the sample is empty, the 30-percent test passes
vacuously, the display-name column is added, and each of its cells is the
lookup image of the string "nan" (which stringifies the missing cell)
falling back to the original missing value on a lookup miss. -/
theorem C10_enrich_null_column (lookup : List (String × String)) (df : Frame)
    (column entity_type : String) (hl : lookup ≠ [])
    (hnull : ∀ r ∈ df.rows, getVal r column = .null) :
    (enrich_with_names lookup df column entity_type).display = pyTitle entity_type ++ " Name"
    ∧ ∀ i, i < df.rows.length →
        getVal ((enrich_with_names lookup df column entity_type).df.rows.getD i [])
            (pyTitle entity_type ++ " Name")
          = enrichNewVal lookup Val.null := by
  have hsample : enrichSample df column = [] := by
    unfold enrichSample
    have hfil : (df.rows.map (fun r => getVal r column)).filter (fun v => v != Val.null) = [] := by
      rw [List.filter_eq_nil_iff]
      intro v hv
      obtain ⟨r, hr, rfl⟩ := List.mem_map.mp hv
      simp [hnull r hr]
    rw [hfil]
    rfl
  have hfires : enrichFires lookup df column = true := by
    unfold enrichFires
    rw [hsample]
    norm_num
  have hl' : ¬(lookup.isEmpty = true) := by
    cases lookup with
    | nil => exact absurd rfl hl
    | cons x t => simp
  unfold enrich_with_names
  rw [if_neg hl', if_pos hfires]
  refine ⟨rfl, ?_⟩
  intro i hi
  simp only [addCol]
  rw [getD_map_lt _ _ i hi, getVal_setOrAppend_self]
  rw [hnull (df.rows.getD i []) (getD_mem_of_lt df.rows i [] hi)]

/-- Witness for the amended C10 on a single-row all-missing column and a
lookup without the "nan" key. -/
theorem C10_witness :
    ([("X", "Y")] : List (String × String)) ≠ []
    ∧ (enrich_with_names [("X", "Y")] ⟨["pid"], [[("pid", Val.null)]]⟩
        "pid" "product").display = pyTitle "product" ++ " Name"
    ∧ getVal ((enrich_with_names [("X", "Y")] ⟨["pid"], [[("pid", Val.null)]]⟩
        "pid" "product").df.rows.getD 0 []) (pyTitle "product" ++ " Name")
        = enrichNewVal [("X", "Y")] Val.null :=
  ⟨by decide,
   (C10_enrich_null_column [("X", "Y")] ⟨["pid"], [[("pid", Val.null)]]⟩ "pid" "product"
      (by decide) (by decide)).1,
   (C10_enrich_null_column [("X", "Y")] ⟨["pid"], [[("pid", Val.null)]]⟩ "pid" "product"
      (by decide) (by decide)).2 0 (by decide)⟩

/-! ## Claim C8 -/

/-- C8 counterexample: the single scaling function of the formatters
module renders 140,000 as "₹1.40L" (no space before the suffix), not as
the "₹1.40 L" the claim states. -/
theorem C8_counterexample :
    format_currency (some 140000) "INR" = "₹1.40L"
    ∧ ("₹1.40L" : String) ≠ "₹1.40 L" :=
  ⟨by with_unfolding_all rfl, by decide⟩

/-- C8 (amended): `format_currency` scales by absolute-value thresholds —
crores with suffix "Cr" and two decimals from 10,000,000, lakhs with
suffix "L" and two decimals from 100,000, smaller values unscaled — and
renders 140,000 as "₹1.40L"; the separate ai-chat formatter `format_inr` is the
formatter that writes "₹1.40 L" with a space, and it compares the signed
value (not the absolute value) against the thresholds, leaving -200,000
unscaled. -/
theorem C8_currency_scaling (v : ℚ) :
    (10000000 ≤ |v| → format_currency (some v) "INR" = "₹" ++ fmt2 (v / 10000000) ++ "Cr")
    ∧ (100000 ≤ |v| → |v| < 10000000 →
        format_currency (some v) "INR" = "₹" ++ fmt2 (v / 100000) ++ "L")
    ∧ (1000 ≤ |v| → |v| < 100000 → format_currency (some v) "INR" = "₹" ++ fmtComma0 v)
    ∧ (|v| < 1000 → format_currency (some v) "INR" = "₹" ++ fmt0 v)
    ∧ format_inr 140000 = "₹1.40 L"
    ∧ format_inr (-200000) = "₹-200,000" := by
  refine ⟨?_, ?_, ?_, ?_, by with_unfolding_all rfl, by with_unfolding_all rfl⟩
  · intro h
    simp [format_currency, h]
  · intro h1 h2
    simp [format_currency, h1, not_le.mpr h2]
  · intro h1 h2
    have h3 : |v| < 10000000 := lt_trans h2 (by norm_num)
    simp [format_currency, h1, not_le.mpr h2, not_le.mpr h3]
  · intro h
    have h2 : |v| < 100000 := lt_trans h (by norm_num)
    have h3 : |v| < 10000000 := lt_trans h (by norm_num)
    simp [format_currency, not_le.mpr h, not_le.mpr h2, not_le.mpr h3]

/-- Witness for the amended C8 in the lakh branch at 140,000. -/
theorem C8_witness :
    ((100000 : ℚ) ≤ |(140000 : ℚ)| ∧ |(140000 : ℚ)| < 10000000)
    ∧ format_currency (some 140000) "INR" = "₹" ++ fmt2 ((140000 : ℚ) / 100000) ++ "L" :=
  ⟨⟨of_decide_eq_true (by with_unfolding_all rfl), of_decide_eq_true (by with_unfolding_all rfl)⟩,
   (C8_currency_scaling 140000).2.1 (of_decide_eq_true (by with_unfolding_all rfl))
     (of_decide_eq_true (by with_unfolding_all rfl))⟩

/-- A digit-free character list has no integer run. -/
theorem firstIntRun_none (l : List Char) (h : ∀ c ∈ l, c.isDigit = false) :
    firstIntRun l = none := by
  induction l with
  | nil => rfl
  | cons c t ih =>
    unfold firstIntRun
    rw [h c (by simp)]
    exact ih (fun x hx => h x (by simp [hx]))

/-- A run of elements satisfying the predicate extends `takeWhile` past
an append boundary. -/
theorem takeWhile_append_of_all {α : Type} (p : α → Bool) (b c : List α)
    (h : ∀ x ∈ b, p x = true) : (b ++ c).takeWhile p = b ++ c.takeWhile p := by
  induction b with
  | nil => simp
  | cons x t ih =>
    rw [List.cons_append, List.takeWhile_cons, h x (by simp), if_pos rfl,
      ih (fun y hy => h y (by simp [hy])), List.cons_append]

/-- A list whose head refutes the predicate has an empty `takeWhile`. -/
theorem takeWhile_eq_nil_of_head {α : Type} (p : α → Bool) (c : List α)
    (h : ∀ x ∈ c.take 1, p x = false) : c.takeWhile p = [] := by
  cases c with
  | nil => rfl
  | cons x t => rw [List.takeWhile_cons, h x (by simp), if_neg (by simp)]

/-- A run of elements satisfying the predicate is consumed by
`dropWhile` across an append boundary. -/
theorem dropWhile_append_of_all {α : Type} (p : α → Bool) (s r : List α)
    (h : ∀ x ∈ s, p x = true) : (s ++ r).dropWhile p = r.dropWhile p := by
  induction s with
  | nil => simp
  | cons x t ih =>
    rw [List.cons_append, List.dropWhile_cons, h x (by simp), if_pos rfl]
    exact ih (fun y hy => h y (by simp [hy]))

/-- A digit is not regex whitespace. -/
theorem pyIsSpace_eq_false_of_isDigit (x : Char) (h : x.isDigit = true) :
    pyIsSpace x = false := by
  have h1 : (x == ' ') = false :=
    beq_eq_false_iff_ne.mpr (fun he => by subst he; exact absurd h (by decide))
  have h2 : (x == '\t') = false :=
    beq_eq_false_iff_ne.mpr (fun he => by subst he; exact absurd h (by decide))
  have h3 : (x == '\n') = false :=
    beq_eq_false_iff_ne.mpr (fun he => by subst he; exact absurd h (by decide))
  have h4 : (x == '\r') = false :=
    beq_eq_false_iff_ne.mpr (fun he => by subst he; exact absurd h (by decide))
  unfold pyIsSpace
  rw [h1, h2, h3, h4]
  rfl

/-- Full specification of the leftmost maximal digit run of
`re.findall`: a digit-free text, then a non-empty digit run, then any
tail not starting with a digit yields exactly that run, whatever digits
occur later in the tail. -/
theorem firstIntRun_spec (a b c : List Char) (ha : ∀ x ∈ a, x.isDigit = false)
    (hb : b ≠ []) (hd : ∀ x ∈ b, x.isDigit = true)
    (hc : ∀ x ∈ c.take 1, x.isDigit = false) :
    firstIntRun (a ++ (b ++ c)) = some (natFromDigits b) := by
  induction a with
  | nil =>
    rw [List.nil_append]
    cases b with
    | nil => exact absurd rfl hb
    | cons d t =>
      rw [List.cons_append]
      unfold firstIntRun
      rw [hd d (by simp), if_pos rfl, ← List.cons_append,
        takeWhile_append_of_all Char.isDigit (d :: t) c hd,
        takeWhile_eq_nil_of_head Char.isDigit c hc, List.append_nil]
  | cons x t ih =>
    rw [List.cons_append]
    unfold firstIntRun
    rw [ha x (by simp), if_neg (by simp)]
    exact ih (fun y hy => ha y (by simp [hy]))

/-- When no position of the text starts a `top\s*\d+` match, the scan of
`re.search` finds nothing — even if "top" and digits occur apart. -/
theorem topLimitScan_none_of_all (l : List Char)
    (h : ∀ i < l.length, tryTopAt (l.drop i) = none) :
    topLimitScan l = none := by
  induction l with
  | nil => rfl
  | cons x t ih =>
    unfold topLimitScan
    have h0 : tryTopAt (x :: t) = none := by
      have h0 := h 0 (by simp)
      rwa [List.drop_zero] at h0
    rw [h0]
    exact ih (fun i hi => by
      have hrec := h (i + 1) (by simpa using Nat.succ_lt_succ hi)
      rwa [List.drop_succ_cons] at hrec)

/-- The scan of `re.search` returns the match at the leftmost position
where the whole pattern matches. -/
theorem topLimitScan_eq_of_leftmost (l : List Char) (j n : ℕ)
    (hbefore : ∀ i < j, tryTopAt (l.drop i) = none)
    (hj : tryTopAt (l.drop j) = some n) :
    topLimitScan l = some n := by
  induction j generalizing l with
  | zero =>
    rw [List.drop_zero] at hj
    cases l with
    | nil => simp [show tryTopAt [] = none from rfl] at hj
    | cons x t =>
      unfold topLimitScan
      rw [hj]
  | succ m ih =>
    cases l with
    | nil =>
      rw [List.drop_nil] at hj
      simp [show tryTopAt [] = none from rfl] at hj
    | cons x t =>
      unfold topLimitScan
      have h0 : tryTopAt (x :: t) = none := by
        have h0 := hbefore 0 (Nat.succ_pos m)
        rwa [List.drop_zero] at h0
      rw [h0]
      apply ih t
      · intro i hi
        have hr := hbefore (i + 1) (Nat.succ_lt_succ hi)
        rwa [List.drop_succ_cons] at hr
      · rwa [List.drop_succ_cons] at hj

/-- At a position starting with "top", then whitespace, then a maximal
non-empty digit run, the per-position matcher yields that run. -/
theorem tryTopAt_eval (s b c : List Char) (hs : ∀ x ∈ s, pyIsSpace x = true)
    (hb : b ≠ []) (hd : ∀ x ∈ b, x.isDigit = true)
    (hc : ∀ x ∈ c.take 1, x.isDigit = false) :
    tryTopAt ("top".data ++ (s ++ (b ++ c))) = some (natFromDigits b) := by
  unfold tryTopAt
  have hpre : ("top".data).isPrefixOf ("top".data ++ (s ++ (b ++ c))) = true :=
    List.isPrefixOf_iff_prefix.mpr (List.prefix_append _ _)
  rw [if_pos hpre, show (3 : ℕ) = ("top".data).length from rfl, List.drop_left]
  cases b with
  | nil => exact absurd rfl hb
  | cons d t =>
    have hds : pyIsSpace d = false :=
      pyIsSpace_eq_false_of_isDigit d (hd d (List.mem_cons_self d t))
    rw [dropWhile_append_of_all pyIsSpace s _ hs, List.cons_append, List.dropWhile_cons,
      hds, if_neg Bool.false_ne_true, ← List.cons_append,
      takeWhile_append_of_all Char.isDigit (d :: t) c hd,
      takeWhile_eq_nil_of_head Char.isDigit c hc, List.append_nil]
    rw [show ((d :: t).isEmpty) = false from rfl, if_neg Bool.false_ne_true]

/-- The parsed limit parameter is the `top N` scan of the lower-cased,
stripped query, whatever the classified intent. -/
theorem parse_snd (q : String) :
    (parse q).2 = topLimitScan (pyStrip (pyLower q)).data := by
  unfold parse
  cases hf : PATTERNS.find? (fun p => p.2.any (matchPat (pyStrip (pyLower q)))) with
  | none => rfl
  | some p => rfl

/-! ## Claim C4 -/

/-- C4 counterexample: the query "best products 7" contains the integer 7
and classifies as the top-N intent top_products, but `QueryParser.parse`
extracts no limit (its regex only accepts an integer directly after
"top"), so `execute` truncates with the default 10, not 7. -/
theorem C4_counterexample :
    parse "best products 7" = ("top_products", none)
    ∧ executeLimit "best products 7" = 10
    ∧ (10 : ℕ) ≠ 7 :=
  ⟨by decide, by decide, by decide⟩

/-- C4 (amended): in `DataAnalyzer.analyze_query` the limit is the first
(leftmost maximal) integer run appearing anywhere in the query, 10 when
the query has no digit; in `QueryParser.parse` a limit is extracted only
from a digit run directly following some occurrence of "top" (after
optional whitespace), taking the leftmost matching occurrence — and when
no position of the lower-cased stripped query matches
"top"-whitespace-digits, the top-N handlers of `execute` use the default
10 even if the query contains integers elsewhere. -/
theorem C4_limit_extraction (a b c q : String) (al s bl cl : List Char) :
    ((∀ x ∈ q.data, x.isDigit = false) → analyzeLimit q = 10)
    ∧ ((∀ x ∈ a.data, x.isDigit = false) → b.data ≠ [] → (∀ x ∈ b.data, x.isDigit = true) →
        (∀ x ∈ c.data.take 1, x.isDigit = false) →
        analyzeLimit (a ++ b ++ c) = natFromDigits b.data)
    ∧ ((∀ i < (pyStrip (pyLower q)).data.length,
          tryTopAt ((pyStrip (pyLower q)).data.drop i) = none) →
        executeLimit q = 10)
    ∧ ((pyStrip (pyLower q)).data = al ++ ("top".data ++ (s ++ (bl ++ cl))) →
        (∀ i < al.length, tryTopAt ((pyStrip (pyLower q)).data.drop i) = none) →
        (∀ x ∈ s, pyIsSpace x = true) →
        bl ≠ [] → (∀ x ∈ bl, x.isDigit = true) →
        (∀ x ∈ cl.take 1, x.isDigit = false) →
        executeLimit q = natFromDigits bl) := by
  refine ⟨?_, ?_, ?_, ?_⟩
  · intro h
    simp [analyzeLimit, firstIntRun_none q.data h]
  · intro ha hb hd hc
    have hq : (a ++ b ++ c).data = a.data ++ b.data ++ c.data := by
      rw [String.data_append, String.data_append]
    simp [analyzeLimit, hq, firstIntRun_spec a.data b.data c.data ha hb hd hc]
  · intro h
    simp [executeLimit, parse_snd, topLimitScan_none_of_all _ h]
  · intro hdec hbefore hs hb hd hc
    have hj : tryTopAt ((pyStrip (pyLower q)).data.drop al.length)
        = some (natFromDigits bl) := by
      rw [hdec, List.drop_left]
      exact tryTopAt_eval s bl cl hs hb hd hc
    have hscan := topLimitScan_eq_of_leftmost ((pyStrip (pyLower q)).data) al.length
      (natFromDigits bl) hbefore hj
    simp [executeLimit, parse_snd, hscan]

/-- Witness for the amended C4: a digit-free query; a query whose first
integer sits mid-text with a second integer later (the first one wins);
a query containing both "top" and an integer that are not adjacent
(default 10); and a query whose "top 5" sits mid-text (5 extracted). -/
theorem C4_witness :
    analyzeLimit "show my revenue" = 10
    ∧ analyzeLimit ("top " ++ "5" ++ " products under 200") = natFromDigits ("5" : String).data
    ∧ executeLimit "top products 7" = 10
    ∧ executeLimit "show top 5 products now" = natFromDigits [Char.ofNat 53] :=
  ⟨(C4_limit_extraction "" "" "" "show my revenue" [] [] [] []).1 (by decide),
   (C4_limit_extraction "top " "5" " products under 200" "" [] [] [] []).2.1
      (by decide) (by decide) (by decide) (by decide),
   (C4_limit_extraction "" "" "" "top products 7" [] [] [] []).2.2.1 (by decide),
   (C4_limit_extraction "" "" "" "show top 5 products now" ("show ".data) [Char.ofNat 32]
      [Char.ofNat 53] (" products now".data)).2.2.2 (by decide) (by decide) (by decide)
      (by decide) (by decide) (by decide)⟩

/-! ## Claim C2 -/

/-- C2: `rto_rate` always lies in [0, 100]; it is 0 when no row has
canonical status "Delivered" or "RTO", and otherwise equals
100 x rto_count / (rto_count + delivered_count). -/
theorem C2_rto_rate (e : AnalyticsEngine) :
    0 ≤ (rto_rate e).value ∧ (rto_rate e).value ≤ 100
    ∧ (rtoCount e + deliveredCount e = 0 → (rto_rate e).value = 0)
    ∧ (0 < rtoCount e + deliveredCount e →
        (rto_rate e).value
          = 100 * (rtoCount e : ℚ) / ((rtoCount e : ℚ) + (deliveredCount e : ℚ))) := by
  cases hco : colOf e "order_status" with
  | none =>
    have hz : (rto_rate e).value = 0 := by
      unfold rto_rate
      rw [hco]
    have hr : rtoCount e = 0 := by
      simp [rtoCount, canonStatus, hco]
    have hd : deliveredCount e = 0 := by
      simp [deliveredCount, canonStatus, hco]
    rw [hz, hr, hd]
    norm_num
  | some sc =>
    by_cases hcond : (sc != "" && e.df.cols.contains sc) = true
    · have hr : rtoCount e
          = (e.df.rows.filter (fun r => getVal r sc == Val.str "RTO")).length := by
        simp only [rtoCount, canonStatus, hco, hcond, if_true]
      have hd : deliveredCount e
          = (e.df.rows.filter (fun r => getVal r sc == Val.str "Delivered")).length := by
        simp only [deliveredCount, canonStatus, hco, hcond, if_true]
      have hdisj : ∀ r ∈ e.df.rows,
          ¬((getVal r sc == Val.str "Delivered") = true
            ∧ (getVal r sc == Val.str "RTO") = true) := by
        rintro r _ ⟨h1, h2⟩
        rw [beq_iff_eq] at h1 h2
        rw [h1] at h2
        exact absurd (Val.str.inj h2) (by decide)
      have hsplit := length_filter_or (fun r => getVal r sc == Val.str "Delivered")
        (fun r => getVal r sc == Val.str "RTO") e.df.rows hdisj
      have hrf : ((e.df.rows.filter (fun r => (getVal r sc == Val.str "Delivered")
              || (getVal r sc == Val.str "RTO"))).filter
              (fun r => getVal r sc == Val.str "RTO")).length
          = (e.df.rows.filter (fun r => getVal r sc == Val.str "RTO")).length := by
        rw [List.filter_filter]
        have hpt : ∀ a ∈ e.df.rows,
            ((getVal a sc == Val.str "RTO")
              && ((getVal a sc == Val.str "Delivered") || (getVal a sc == Val.str "RTO")))
            = (getVal a sc == Val.str "RTO") := by
          intro a _
          cases hq : (getVal a sc == Val.str "RTO") <;> simp [hq]
        rw [List.filter_congr hpt]
      have hval : (rto_rate e).value
          = if 0 < (e.df.rows.filter (fun r => getVal r sc == Val.str "Delivered")).length
                + (e.df.rows.filter (fun r => getVal r sc == Val.str "RTO")).length
            then ((e.df.rows.filter (fun r => getVal r sc == Val.str "RTO")).length : ℚ)
              / (((e.df.rows.filter (fun r => getVal r sc == Val.str "Delivered")).length
                  + (e.df.rows.filter (fun r => getVal r sc == Val.str "RTO")).length : ℕ) : ℚ)
              * 100
            else 0 := by
        simp only [rto_rate, shippedDF, filterRows, hco, hcond, if_true]
        rw [hrf, hsplit]
      rw [hval, hr, hd]
      by_cases hpos :
          0 < (e.df.rows.filter (fun r => getVal r sc == Val.str "Delivered")).length
            + (e.df.rows.filter (fun r => getVal r sc == Val.str "RTO")).length
      · rw [if_pos hpos]
        have hpos' : (0 : ℚ)
            < (((e.df.rows.filter (fun r => getVal r sc == Val.str "Delivered")).length
                + (e.df.rows.filter (fun r => getVal r sc == Val.str "RTO")).length : ℕ) : ℚ) := by
          exact_mod_cast hpos
        refine ⟨?_, ?_, ?_, ?_⟩
        · positivity
        · have hle : (((e.df.rows.filter (fun r => getVal r sc == Val.str "RTO")).length : ℕ) : ℚ)
              ≤ (((e.df.rows.filter (fun r => getVal r sc == Val.str "Delivered")).length
                  + (e.df.rows.filter (fun r => getVal r sc == Val.str "RTO")).length : ℕ) : ℚ) := by
            exact_mod_cast Nat.le_add_left _ _
          calc _ ≤ 1 * (100 : ℚ) :=
                mul_le_mul_of_nonneg_right ((div_le_one hpos').mpr hle) (by norm_num)
            _ = 100 := one_mul 100
        · intro h0
          omega
        · intro _
          have hne :
              ((e.df.rows.filter (fun r => getVal r sc == Val.str "RTO")).length : ℚ)
                + ((e.df.rows.filter (fun r => getVal r sc == Val.str "Delivered")).length : ℚ)
                ≠ 0 := by
            push_cast at hpos'
            rw [add_comm]
            exact ne_of_gt hpos'
          push_cast
          rw [div_mul_eq_mul_div, mul_comm]
          congr 1
          rw [add_comm]
      · rw [if_neg hpos]
        refine ⟨le_refl 0, by norm_num, fun _ => rfl, fun hc => absurd hc (by omega)⟩
    · have hcond2 : ¬(¬sc = "" ∧ sc ∈ e.df.cols) := by simpa using hcond
      have hz : (rto_rate e).value = 0 := by
        simp only [rto_rate, hco]
        rw [if_neg hcond]
      have hr : rtoCount e = 0 := by
        simp [rtoCount, canonStatus, hco, hcond2]
      have hd : deliveredCount e = 0 := by
        simp [deliveredCount, canonStatus, hco, hcond2]
      rw [hz, hr, hd]
      norm_num

/-- Witness for C2 on one delivered and one RTO row: the shipped set is
non-empty and the rate is the claimed ratio. -/
theorem C2_witness :
    0 < rtoCount ⟨⟨["status"], [[("status", Val.str "Delivered")], [("status", Val.str "RTO")]]⟩,
          [("order_status", "status")]⟩
        + deliveredCount ⟨⟨["status"],
          [[("status", Val.str "Delivered")], [("status", Val.str "RTO")]]⟩,
          [("order_status", "status")]⟩
    ∧ (rto_rate ⟨⟨["status"], [[("status", Val.str "Delivered")], [("status", Val.str "RTO")]]⟩,
          [("order_status", "status")]⟩).value
        = 100 * (rtoCount ⟨⟨["status"],
              [[("status", Val.str "Delivered")], [("status", Val.str "RTO")]]⟩,
              [("order_status", "status")]⟩ : ℚ)
          / ((rtoCount ⟨⟨["status"], [[("status", Val.str "Delivered")], [("status", Val.str "RTO")]]⟩,
              [("order_status", "status")]⟩ : ℚ)
            + (deliveredCount ⟨⟨["status"],
              [[("status", Val.str "Delivered")], [("status", Val.str "RTO")]]⟩,
              [("order_status", "status")]⟩ : ℚ)) :=
  ⟨by decide,
   (C2_rto_rate ⟨⟨["status"], [[("status", Val.str "Delivered")], [("status", Val.str "RTO")]]⟩,
      [("order_status", "status")]⟩).2.2.2 (by decide)⟩

/-! ## Claim C1 -/

/-- C1: when the status mapping resolves to a present column, the revenue
value is exactly the sum of the mapped amount column over the rows whose
canonical status is "Delivered" (whenever the amount mapping resolves to
a present column), and overwriting the amount cell of any row whose
canonical status is not "Delivered" leaves the revenue value unchanged. -/
theorem C1_total_revenue (e : AnalyticsEngine) (sc : String)
    (hs : colOf e "order_status" = some sc) (hne : sc ≠ "") (hmem : sc ∈ e.df.cols) :
    (∀ ac, colOf e "total_amount" = some ac → ac ≠ "" → ac ∈ e.df.cols →
      (total_revenue e).value = deliveredAmountSum e ac)
    ∧ (∀ ac i q, colOf e "total_amount" = some ac →
        getVal (e.df.rows.getD i []) sc ≠ .str "Delivered" →
        (total_revenue ⟨updateRow e.df i (fun r => setVal r ac (.num q)), e.mappings⟩).value
          = (total_revenue e).value) := by
  have hcond : (sc != "" && e.df.cols.contains sc) = true := by
    simp [hne, hmem]
  constructor
  · intro ac hac hane hamem
    have hacond : (ac != "" && e.df.cols.contains ac) = true := by
      simp [hane, hamem]
    simp only [total_revenue, deliveredAmountSum, deliveredDF, canonStatus, filterRows,
      hs, hac, hcond, if_true, hacond]
    rfl
  · intro ac i q hac hnd
    have hs' : alookup e.mappings "order_status" = some sc := hs
    have hdel : deliveredDF ⟨updateRow e.df i (fun r => setVal r ac (.num q)), e.mappings⟩
        = deliveredDF e := by
      simp only [deliveredDF, colOf, updateRow, filterRows, hs']
      rw [if_pos hcond, if_pos hcond]
      have hp1 : (fun r => getVal r sc == Val.str "Delivered")
          (e.df.rows.getD i []) = false := beq_eq_false_iff_ne.mpr hnd
      have hp2 : (fun r => getVal r sc == Val.str "Delivered")
          (setVal (e.df.rows.getD i []) ac (.num q)) = false :=
        beq_eq_false_iff_ne.mpr
          (getVal_setVal_num_ne_delivered (e.df.rows.getD i []) ac sc q hnd)
      have hfl := filter_set_eq (fun r => getVal r sc == Val.str "Delivered")
        e.df.rows i (setVal (e.df.rows.getD i []) ac (Val.num q)) [] hp1 hp2
      rw [hfl]
    simp only [total_revenue, colOf, hdel]

/-- Witness for C1 on a two-row dataset (one Delivered, one RTO): the
revenue equals the delivered sum, and rewriting the RTO amount to 999
does not change it. -/
theorem C1_witness :
    (total_revenue ⟨⟨["status", "amount"],
        [[("status", Val.str "Delivered"), ("amount", Val.num 100)],
         [("status", Val.str "RTO"), ("amount", Val.num 50)]]⟩,
        [("order_status", "status"), ("total_amount", "amount")]⟩).value
      = deliveredAmountSum ⟨⟨["status", "amount"],
        [[("status", Val.str "Delivered"), ("amount", Val.num 100)],
         [("status", Val.str "RTO"), ("amount", Val.num 50)]]⟩,
        [("order_status", "status"), ("total_amount", "amount")]⟩ "amount"
    ∧ (total_revenue ⟨updateRow (⟨["status", "amount"],
        [[("status", Val.str "Delivered"), ("amount", Val.num 100)],
         [("status", Val.str "RTO"), ("amount", Val.num 50)]]⟩ : Frame) 1
          (fun r => setVal r "amount" (.num 999)),
        [("order_status", "status"), ("total_amount", "amount")]⟩).value
      = (total_revenue ⟨⟨["status", "amount"],
        [[("status", Val.str "Delivered"), ("amount", Val.num 100)],
         [("status", Val.str "RTO"), ("amount", Val.num 50)]]⟩,
        [("order_status", "status"), ("total_amount", "amount")]⟩).value :=
  ⟨(C1_total_revenue ⟨⟨["status", "amount"],
      [[("status", Val.str "Delivered"), ("amount", Val.num 100)],
       [("status", Val.str "RTO"), ("amount", Val.num 50)]]⟩,
      [("order_status", "status"), ("total_amount", "amount")]⟩ "status"
      rfl (by decide) (by decide)).1 "amount" rfl (by decide) (by decide),
   (C1_total_revenue ⟨⟨["status", "amount"],
      [[("status", Val.str "Delivered"), ("amount", Val.num 100)],
       [("status", Val.str "RTO"), ("amount", Val.num 50)]]⟩,
      [("order_status", "status"), ("total_amount", "amount")]⟩ "status"
      rfl (by decide) (by decide)).2 "amount" 1 999 rfl (by decide)⟩

/-- First-appearance deduplication keeps a non-empty list non-empty. -/
theorem firstDedup_ne_nil (l : List Val) (h : l ≠ []) : firstDedup l ≠ [] := by
  cases l with
  | nil => exact absurd rfl h
  | cons v t =>
    unfold firstDedup firstDedupAux
    simp

/-- Taking at least one element of a non-empty list is non-empty. -/
theorem take_ne_nil_of_pos {α : Type} (l : List α) (n : ℕ) (hl : l ≠ []) (hn : 1 ≤ n) :
    l.take n ≠ [] := by
  cases l with
  | nil => exact absurd rfl hl
  | cons x t =>
    cases n with
    | zero => omega
    | succ m => simp

/-! ## Claim C3 -/

/-- C3 counterexample: on a non-empty dataset with both columns resolved
but no Delivered row, `AnalyticsEngine.category_breakdown` returns the
empty frame — there is no fallback to the full dataset there. -/
theorem C3_counterexample :
    engC3.df.rows ≠ []
    ∧ colOf engC3 "category" = some "cat"
    ∧ colOf engC3 "total_amount" = some "amount"
    ∧ (deliveredDF engC3).rows = []
    ∧ (category_breakdown engC3).rows = [] :=
  ⟨by decide, by decide, by decide, by decide, by decide⟩

/-- C3 (amended): the engine breakdown methods return an empty frame when
the delivered set is empty (no fallback), while the grouped breakdown of
`DataAnalyzer.get_breakdown_analysis` falls back to the full dataframe
when no row is flagged `_is_delivered`, so a dataset with no delivered
rows still yields a non-empty breakdown there — provided the requested
limit is at least 1 and the dimension column has a non-missing value. -/
theorem C3_breakdown_fallback :
    (∀ (e : AnalyticsEngine) (cc ac : String), colOf e "category" = some cc →
      colOf e "total_amount" = some ac →
      (deliveredDF e).rows = [] → (category_breakdown e).rows = [])
    ∧ (∀ (df : Frame) (dc amc dim : String) (n : ℕ),
        df.cols.contains "_is_delivered" = true →
        df.rows.filter (fun r => getVal r "_is_delivered" == Val.bool true) = [] →
        (∃ r ∈ df.rows, getVal r dc ≠ Val.null) →
        1 ≤ n →
        ai_breakdown_rows df dc amc dim n ≠ []) := by
  constructor
  · intro e cc ac hcc hac hdel
    simp [category_breakdown, hcc, hac, hdel]
  · intro df dc amc dim n hcols hflt hex hn
    have hsel : deliveredSelect df = df := by
      unfold deliveredSelect
      rw [if_pos hcols]
      simp [filterRows, hflt]
    obtain ⟨r, hr, hv⟩ := hex
    have hkeys : groupKeys df.rows dc ≠ [] := by
      apply firstDedup_ne_nil
      have hmem : getVal r dc
          ∈ (df.rows.map (fun r => getVal r dc)).filter (fun v => v != Val.null) := by
        rw [List.mem_filter]
        exact ⟨List.mem_map_of_mem _ hr, by simp [hv]⟩


      exact List.ne_nil_of_mem hmem
    have hagg : aiGroupAgg df.rows dc amc dim ≠ [] := by
      unfold aiGroupAgg
      cases hk : groupKeys df.rows dc with
      | nil => exact absurd hk hkeys
      | cons k ks => simp [hk]
    unfold ai_breakdown_rows
    rw [hsel]
    apply take_ne_nil_of_pos _ _ _ hn
    intro hcontra
    have hlen := congrArg List.length hcontra
    rw [sortByDesc, List.length_mergeSort, List.length_nil] at hlen
    exact hagg (List.length_eq_zero.mp hlen)

/-- Witness for the amended C3: the engine instance of the
counterexample, and a one-row ai-chat frame with no delivered flag whose
city breakdown is nevertheless non-empty. -/
theorem C3_witness :
    (category_breakdown engC3).rows = []
    ∧ ai_breakdown_rows ⟨["_is_delivered", "city", "amt"],
        [[("_is_delivered", Val.bool false), ("city", Val.str "Pune"), ("amt", Val.num 5)]]⟩
        "city" "amt" "City" 15 ≠ [] :=
  ⟨C3_breakdown_fallback.1 engC3 "cat" "amount" rfl rfl (by decide),
   C3_breakdown_fallback.2 ⟨["_is_delivered", "city", "amt"],
      [[("_is_delivered", Val.bool false), ("city", Val.str "Pune"), ("amt", Val.num 5)]]⟩
      "city" "amt" "City" 15 (by decide) (by decide)
      ⟨[("_is_delivered", Val.bool false), ("city", Val.str "Pune"), ("amt", Val.num 5)],
        by decide, by decide⟩ (by decide)⟩
